import Mathlib

/-!
# Arduino/CppDelegate/Types.h

A verification development for the header `Types.h` of cpp-delegate.  The header
is a block of eight `typedef`s behind three conditional-compilation directives.
It is embedded as a function on compilation environments (the macros defined so
far and the type definitions issued so far); every directive of the header is
one step of that function, in source order.
-/

namespace CppDelegate

/-! ## Native integer types of the target (Table 10-2 quoted in the header) -/

/-- The integer rows of "Table 10-2 Size and alignment of data types". -/
inductive NativeType
  | char
  | signedChar
  | unsignedChar
  | signedShort
  | unsignedShort
  | signedInt
  | unsignedInt
  | signedLong
  | unsignedLong
  | signedLongLong
  | unsignedLongLong
  deriving DecidableEq, Repr

namespace NativeType

/-- Column "Size in bits" of Table 10-2. -/
def sizeBits : NativeType → Nat
  | char => 8
  | signedChar => 8
  | unsignedChar => 8
  | signedShort => 16
  | unsignedShort => 16
  | signedInt => 32
  | unsignedInt => 32
  | signedLong => 32
  | unsignedLong => 32
  | signedLongLong => 64
  | unsignedLongLong => 64

/-- Column "Natural alignment in bytes" of Table 10-2. -/
def alignBytes : NativeType → Nat
  | char => 1
  | signedChar => 1
  | unsignedChar => 1
  | signedShort => 2
  | unsignedShort => 2
  | signedInt => 4
  | unsignedInt => 4
  | signedLong => 4
  | unsignedLong => 4
  | signedLongLong => 8
  | unsignedLongLong => 8

/-- Lower end of the column "Range of values" of Table 10-2 (`char` is unsigned
by default). -/
def rangeMin : NativeType → Int
  | char => 0
  | signedChar => -128
  | unsignedChar => 0
  | signedShort => -32768
  | unsignedShort => 0
  | signedInt => -2147483648
  | unsignedInt => 0
  | signedLong => -2147483648
  | unsignedLong => 0
  | signedLongLong => -9223372036854775808
  | unsignedLongLong => 0

/-- Upper end of the column "Range of values" of Table 10-2. -/
def rangeMax : NativeType → Int
  | char => 255
  | signedChar => 127
  | unsignedChar => 255
  | signedShort => 32767
  | unsignedShort => 65535
  | signedInt => 2147483647
  | unsignedInt => 4294967295
  | signedLong => 2147483647
  | unsignedLong => 4294967295
  | signedLongLong => 9223372036854775807
  | unsignedLongLong => 18446744073709551615

/-- Signedness of a row of Table 10-2, as its type name states it (`char` is
unsigned by default). -/
def isSigned : NativeType → Bool
  | char => false
  | signedChar => true
  | unsignedChar => false
  | signedShort => true
  | unsignedShort => false
  | signedInt => true
  | unsignedInt => false
  | signedLong => true
  | unsignedLong => false
  | signedLongLong => true
  | unsignedLongLong => false

/-- The value of `sizeof` for a type: its size in units of `char` (8 bits in
Table 10-2). -/
def sizeofBytes (t : NativeType) : Nat := t.sizeBits / char.sizeBits

/-- Conversion of an integer to a native type on the target: the result is the
member of the type's range that is congruent to the value modulo `2 ^ size`. -/
def convert (t : NativeType) (v : Int) : Int :=
  t.rangeMin + (v - t.rangeMin) % (2 : Int) ^ t.sizeBits

/-- Storing a value in a variable of a native type converts it to that type. -/
def store (t : NativeType) (v : Int) : Int := convert t v

/-- Reading a variable back yields the stored value. -/
def load (_t : NativeType) (stored : Int) : Int := stored

end NativeType

/-! ## Compilation environments and directives -/

/-- The state of a compilation at some point of a translation unit: the
macros defined so far (one entry per `#define` processed) and the
type definitions issued so far (one entry per `typedef` processed), both in
order of issue. -/
structure Env where
  macros : List String
  typedefs : List (String × NativeType)
  deriving DecidableEq, Repr

namespace Env

/-- Is the macro defined (`#ifdef name`)? -/
def defined (e : Env) (name : String) : Bool := decide (name ∈ e.macros)

/-- The type names that have a definition. -/
def typeNames (e : Env) : List String := e.typedefs.map Prod.fst

/-- Is the type name defined? -/
def typeDefined (e : Env) (name : String) : Bool := decide (name ∈ e.typeNames)

end Env

/-- The directive `#define name`. -/
def defineMacro (name : String) (e : Env) : Env :=
  { e with macros := e.macros ++ [name] }

/-- The directive `#undef name`. -/
def undefMacro (name : String) (e : Env) : Env :=
  { e with macros := e.macros.filter (fun m => decide (m ≠ name)) }

/-- The declaration `typedef ty name;`. -/
def typedefDecl (ty : NativeType) (name : String) (e : Env) : Env :=
  { e with typedefs := e.typedefs ++ [(name, ty)] }

/-- The block `#ifndef name ... #endif`. -/
def ifndefBlock (name : String) (body : Env → Env) (e : Env) : Env :=
  if e.defined name then e else body e

/-- The block `#ifdef name ... #endif`. -/
def ifdefBlock (name : String) (body : Env → Env) (e : Env) : Env :=
  if e.defined name then body e else e

/-! ## The header -/

/-- Lines 51 to 78 of `Types.h`: the eight `typedef` declarations. -/
def typedefBlock (e : Env) : Env :=
  let e := typedefDecl .signedChar "int8_t" e
  let e := typedefDecl .unsignedChar "uint8_t" e
  let e := typedefDecl .signedShort "int16_t" e
  let e := typedefDecl .unsignedShort "uint16_t" e
  let e := typedefDecl .signedInt "int32_t" e
  let e := typedefDecl .unsignedInt "uint32_t" e
  let e := typedefDecl .signedLongLong "int64_t" e
  let e := typedefDecl .unsignedLongLong "uint64_t" e
  e

/-- The whole of `Types.h`: what `#include "Types.h"` does to the environment. -/
def TypesH : Env → Env :=
  ifndefBlock "___CPP_DELEGATE__TYPES_H___" fun e =>
    let e := defineMacro "___CPP_DELEGATE__TYPES_H___" e
    ifndefBlock "_STDINT_H" (ifdefBlock "__MK20DX256__" typedefBlock) e

/-- The type definitions issued by one inclusion of `Types.h`: the entries it
appended to the environment. -/
def issuedTypedefs (e : Env) : List (String × NativeType) :=
  (TypesH e).typedefs.drop e.typedefs.length

/-- The macros defined by one inclusion of `Types.h`: the entries it appended
to the environment. -/
def issuedMacros (e : Env) : List String :=
  (TypesH e).macros.drop e.macros.length

/-! ## The eight fixed-width names -/

/-- The eight fixed-width integer names. -/
inductive Alias
  | int8_t
  | uint8_t
  | int16_t
  | uint16_t
  | int32_t
  | uint32_t
  | int64_t
  | uint64_t
  deriving DecidableEq, Repr

namespace Alias

/-- The identifier of a fixed-width name. -/
def name : Alias → String
  | int8_t => "int8_t"
  | uint8_t => "uint8_t"
  | int16_t => "int16_t"
  | uint16_t => "uint16_t"
  | int32_t => "int32_t"
  | uint32_t => "uint32_t"
  | int64_t => "int64_t"
  | uint64_t => "uint64_t"

/-- The canonical width in bits: the `N` of `intN_t` and `uintN_t`. -/
def width : Alias → Nat
  | int8_t => 8
  | uint8_t => 8
  | int16_t => 16
  | uint16_t => 16
  | int32_t => 32
  | uint32_t => 32
  | int64_t => 64
  | uint64_t => 64

/-- The signedness the name states: `intN_t` is signed, `uintN_t` is not. -/
def signed : Alias → Bool
  | int8_t => true
  | uint8_t => false
  | int16_t => true
  | uint16_t => false
  | int32_t => true
  | uint32_t => false
  | int64_t => true
  | uint64_t => false

/-- All eight names, in the order in which `Types.h` declares them. -/
def all : List Alias :=
  [int8_t, uint8_t, int16_t, uint16_t, int32_t, uint32_t, int64_t, uint64_t]

/-- Least value of the canonical range of a name. -/
def canonicalMin (a : Alias) : Int :=
  if a.signed then -((2 : Int) ^ (a.width - 1)) else 0

/-- Greatest value of the canonical range of a name. -/
def canonicalMax (a : Alias) : Int :=
  if a.signed then (2 : Int) ^ (a.width - 1) - 1 else (2 : Int) ^ a.width - 1

end Alias

/-- The native type that an inclusion of `Types.h` in environment `e` binds to
a fixed-width name, if it issues a definition of that name. -/
def boundType (e : Env) (a : Alias) : Option NativeType :=
  (issuedTypedefs e).lookup a.name

/-! ## Sequences of inclusions -/

/-- Put a macro in a chosen state: defined (`#define` unless it already is) or
not defined (`#undef`). -/
def setMacro (name : String) (wanted : Bool) (e : Env) : Env :=
  if wanted then (if e.defined name then e else defineMacro name e) else undefMacro name e

/-- The state of the two macros that `Types.h` tests, chosen before an
inclusion. -/
structure Setting where
  mk20dx256 : Bool
  stdintH : Bool
  deriving DecidableEq, Repr

/-- One inclusion of `Types.h`, with `__MK20DX256__` and `_STDINT_H` set as
chosen just before it. -/
def includeWith (c : Setting) (e : Env) : Env :=
  TypesH (setMacro "_STDINT_H" c.stdintH (setMacro "__MK20DX256__" c.mk20dx256 e))

/-- A finite sequence of inclusions of `Types.h`, each with its own setting. -/
def includeSeq : List Setting → Env → Env
  | [], e => e
  | c :: cs, e => includeSeq cs (includeWith c e)

/-- The eight names are either all type names of the environment or none is. -/
def allOrNone (e : Env) : Prop :=
  (∀ a : Alias, e.typeDefined a.name = true) ∨ (∀ a : Alias, e.typeDefined a.name = false)

/-! ## Basic facts -/

/-- Table 10-2 is coherent: every integer row has exactly `2 ^ size` values, and
conversion to a type lands in the range of that type. -/
theorem NativeType.table_coherent (t : NativeType) :
    t.rangeMax - t.rangeMin + 1 = (2 : Int) ^ t.sizeBits ∧
    ∀ v : Int, t.rangeMin ≤ t.convert v ∧ t.convert v ≤ t.rangeMax := by
  cases t <;>
    simp [NativeType.convert, NativeType.sizeBits, NativeType.rangeMin,
      NativeType.rangeMax] <;>
    intro v <;> omega

theorem TypesH_guarded (e : Env) (h : "___CPP_DELEGATE__TYPES_H___" ∈ e.macros) :
    TypesH e = e := by
  simp [TypesH, ifndefBlock, Env.defined, h]

theorem TypesH_inert (e : Env) (h : "___CPP_DELEGATE__TYPES_H___" ∉ e.macros)
    (h2 : "_STDINT_H" ∈ e.macros ∨ "__MK20DX256__" ∉ e.macros) :
    TypesH e = { e with macros := e.macros ++ ["___CPP_DELEGATE__TYPES_H___"] } := by
  rcases h2 with h2 | h2 <;>
    simp [TypesH, ifndefBlock, ifdefBlock, Env.defined, defineMacro, h, h2]

theorem TypesH_active (e : Env) (h : "___CPP_DELEGATE__TYPES_H___" ∉ e.macros)
    (h1 : "_STDINT_H" ∉ e.macros) (h2 : "__MK20DX256__" ∈ e.macros) :
    TypesH e =
      { macros := e.macros ++ ["___CPP_DELEGATE__TYPES_H___"]
        typedefs := e.typedefs ++
          [("int8_t", .signedChar), ("uint8_t", .unsignedChar),
           ("int16_t", .signedShort), ("uint16_t", .unsignedShort),
           ("int32_t", .signedInt), ("uint32_t", .unsignedInt),
           ("int64_t", .signedLongLong), ("uint64_t", .unsignedLongLong)] } := by
  simp [TypesH, ifndefBlock, ifdefBlock, Env.defined, defineMacro, typedefBlock,
    typedefDecl, h, h1, h2]

theorem guard_defined_after (e : Env) :
    "___CPP_DELEGATE__TYPES_H___" ∈ (TypesH e).macros := by
  by_cases h : "___CPP_DELEGATE__TYPES_H___" ∈ e.macros
  · rw [TypesH_guarded e h]; exact h
  · by_cases h2 : "_STDINT_H" ∈ e.macros ∨ "__MK20DX256__" ∉ e.macros
    · rw [TypesH_inert e h h2]; simp
    · have h1 : "_STDINT_H" ∉ e.macros := fun c => h2 (Or.inl c)
      have h3 : "__MK20DX256__" ∈ e.macros := by
        by_contra c
        exact h2 (Or.inr c)
      rw [TypesH_active e h h1 h3]; simp

theorem issuedTypedefs_guarded (e : Env) (h : "___CPP_DELEGATE__TYPES_H___" ∈ e.macros) :
    issuedTypedefs e = [] := by
  simp [issuedTypedefs, TypesH_guarded e h]

theorem issuedTypedefs_inert (e : Env)
    (h2 : "_STDINT_H" ∈ e.macros ∨ "__MK20DX256__" ∉ e.macros) :
    issuedTypedefs e = [] := by
  by_cases h : "___CPP_DELEGATE__TYPES_H___" ∈ e.macros
  · exact issuedTypedefs_guarded e h
  · simp [issuedTypedefs, TypesH_inert e h h2]

theorem issuedTypedefs_active (e : Env) (h : "___CPP_DELEGATE__TYPES_H___" ∉ e.macros)
    (h1 : "_STDINT_H" ∉ e.macros) (h2 : "__MK20DX256__" ∈ e.macros) :
    issuedTypedefs e =
      [("int8_t", .signedChar), ("uint8_t", .unsignedChar),
       ("int16_t", .signedShort), ("uint16_t", .unsignedShort),
       ("int32_t", .signedInt), ("uint32_t", .unsignedInt),
       ("int64_t", .signedLongLong), ("uint64_t", .unsignedLongLong)] := by
  simp [issuedTypedefs, TypesH_active e h h1 h2]

theorem issuedTypedefs_cases (e : Env) :
    issuedTypedefs e = [] ∨
    issuedTypedefs e =
      [("int8_t", .signedChar), ("uint8_t", .unsignedChar),
       ("int16_t", .signedShort), ("uint16_t", .unsignedShort),
       ("int32_t", .signedInt), ("uint32_t", .unsignedInt),
       ("int64_t", .signedLongLong), ("uint64_t", .unsignedLongLong)] := by
  by_cases hg : "___CPP_DELEGATE__TYPES_H___" ∈ e.macros
  · exact Or.inl (issuedTypedefs_guarded e hg)
  · by_cases hc : "_STDINT_H" ∈ e.macros ∨ "__MK20DX256__" ∉ e.macros
    · exact Or.inl (issuedTypedefs_inert e hc)
    · have h1 : "_STDINT_H" ∉ e.macros := fun c => hc (Or.inl c)
      have h3 : "__MK20DX256__" ∈ e.macros := by
        by_contra c
        exact hc (Or.inr c)
      exact Or.inr (issuedTypedefs_active e hg h1 h3)

theorem typedefs_eq_append_issued (e : Env) :
    (TypesH e).typedefs = e.typedefs ++ issuedTypedefs e := by
  by_cases h : "___CPP_DELEGATE__TYPES_H___" ∈ e.macros
  · simp [issuedTypedefs, TypesH_guarded e h]
  · by_cases h2 : "_STDINT_H" ∈ e.macros ∨ "__MK20DX256__" ∉ e.macros
    · simp [issuedTypedefs, TypesH_inert e h h2]
    · have h1 : "_STDINT_H" ∉ e.macros := fun c => h2 (Or.inl c)
      have h3 : "__MK20DX256__" ∈ e.macros := by
        by_contra c
        exact h2 (Or.inr c)
      simp [issuedTypedefs, TypesH_active e h h1 h3]

theorem macros_eq_append_issued (e : Env) :
    (TypesH e).macros = e.macros ++ issuedMacros e := by
  by_cases h : "___CPP_DELEGATE__TYPES_H___" ∈ e.macros
  · simp [issuedMacros, TypesH_guarded e h]
  · by_cases h2 : "_STDINT_H" ∈ e.macros ∨ "__MK20DX256__" ∉ e.macros
    · simp [issuedMacros, TypesH_inert e h h2]
    · have h1 : "_STDINT_H" ∉ e.macros := fun c => h2 (Or.inl c)
      have h3 : "__MK20DX256__" ∈ e.macros := by
        by_contra c
        exact h2 (Or.inr c)
      simp [issuedMacros, TypesH_active e h h1 h3]

theorem issuedMacros_cases (e : Env) :
    (issuedMacros e = [] ∧ "___CPP_DELEGATE__TYPES_H___" ∈ e.macros) ∨
    (issuedMacros e = ["___CPP_DELEGATE__TYPES_H___"] ∧
      "___CPP_DELEGATE__TYPES_H___" ∉ e.macros) := by
  by_cases h : "___CPP_DELEGATE__TYPES_H___" ∈ e.macros
  · left; simp [issuedMacros, TypesH_guarded e h, h]
  · right
    by_cases h2 : "_STDINT_H" ∈ e.macros ∨ "__MK20DX256__" ∉ e.macros
    · simp [issuedMacros, TypesH_inert e h h2, h]
    · have h1 : "_STDINT_H" ∉ e.macros := fun c => h2 (Or.inl c)
      have h3 : "__MK20DX256__" ∈ e.macros := by
        by_contra c
        exact h2 (Or.inr c)
      simp [issuedMacros, TypesH_active e h h1 h3, h]

theorem mem_issuedNames_iff (e : Env) (n : String) :
    n ∈ (issuedTypedefs e).map Prod.fst ↔
      ("___CPP_DELEGATE__TYPES_H___" ∉ e.macros ∧ "_STDINT_H" ∉ e.macros ∧
        "__MK20DX256__" ∈ e.macros ∧ ∃ a : Alias, a.name = n) := by
  by_cases hg : "___CPP_DELEGATE__TYPES_H___" ∈ e.macros
  · simp [issuedTypedefs_guarded e hg, hg]
  · by_cases hc : "_STDINT_H" ∈ e.macros ∨ "__MK20DX256__" ∉ e.macros
    · rw [issuedTypedefs_inert e hc]
      rcases hc with hc | hc <;> simp [hc]
    · have h1 : "_STDINT_H" ∉ e.macros := fun c => hc (Or.inl c)
      have h3 : "__MK20DX256__" ∈ e.macros := by
        by_contra c
        exact hc (Or.inr c)
      rw [issuedTypedefs_active e hg h1 h3]
      constructor
      · intro hn
        refine ⟨hg, h1, h3, ?_⟩
        simp at hn
        rcases hn with h | h | h | h | h | h | h | h <;> subst h
        · exact ⟨.int8_t, rfl⟩
        · exact ⟨.uint8_t, rfl⟩
        · exact ⟨.int16_t, rfl⟩
        · exact ⟨.uint16_t, rfl⟩
        · exact ⟨.int32_t, rfl⟩
        · exact ⟨.uint32_t, rfl⟩
        · exact ⟨.int64_t, rfl⟩
        · exact ⟨.uint64_t, rfl⟩
      · rintro ⟨_, _, _, a, rfl⟩
        cases a <;> simp [Alias.name]

/-! ## Activation (C1) -/

/-- C1: in every environment where the file guard `___CPP_DELEGATE__TYPES_H___`
is not yet defined, an inclusion of `Types.h` issues definitions of exactly the
eight fixed-width names if and only if `_STDINT_H` is not defined and
`__MK20DX256__` is defined; otherwise, and in particular whenever
`__MK20DX256__` is not defined, it issues no type definition at all. -/
theorem C1_activation (e : Env) (hg : "___CPP_DELEGATE__TYPES_H___" ∉ e.macros) :
    ((issuedTypedefs e).map Prod.fst = Alias.all.map Alias.name ↔
      ("_STDINT_H" ∉ e.macros ∧ "__MK20DX256__" ∈ e.macros)) ∧
    ((∀ a : Alias, a.name ∈ (issuedTypedefs e).map Prod.fst) ↔
      ("_STDINT_H" ∉ e.macros ∧ "__MK20DX256__" ∈ e.macros)) ∧
    (¬ ("_STDINT_H" ∉ e.macros ∧ "__MK20DX256__" ∈ e.macros) → issuedTypedefs e = []) ∧
    ("__MK20DX256__" ∉ e.macros → ∀ a : Alias, (TypesH e).typeDefined a.name = e.typeDefined a.name) := by
  by_cases hc : "_STDINT_H" ∉ e.macros ∧ "__MK20DX256__" ∈ e.macros
  · have hi := issuedTypedefs_active e hg hc.1 hc.2
    refine ⟨?_, ?_, ?_, ?_⟩
    · rw [hi]; simp [hc, Alias.all, Alias.name]
    · rw [hi]
      refine ⟨fun _ => hc, fun _ a => ?_⟩
      cases a <;> simp [Alias.name]
    · intro h; exact absurd hc h
    · intro h; exact absurd hc.2 h
  · have h2 : "_STDINT_H" ∈ e.macros ∨ "__MK20DX256__" ∉ e.macros := by
      by_cases h1 : "_STDINT_H" ∈ e.macros
      · exact Or.inl h1
      · exact Or.inr (fun c => hc ⟨h1, c⟩)
    have hi := issuedTypedefs_inert e h2
    refine ⟨?_, ?_, ?_, ?_⟩
    · rw [hi]; simp [hc, Alias.all]
    · rw [hi]
      refine ⟨fun h => ?_, fun h => absurd h hc⟩
      have := h Alias.int8_t
      simp at this
    · intro _; exact hi
    · intro _ a
      simp [Env.typeDefined, Env.typeNames, TypesH_inert e hg h2]

/-- Witness for C1: on the bare named target all eight names are issued. -/
theorem C1_activation_witness :
    "___CPP_DELEGATE__TYPES_H___" ∉ (Env.mk ["__MK20DX256__"] []).macros ∧
    ((issuedTypedefs (Env.mk ["__MK20DX256__"] [])).map Prod.fst =
        Alias.all.map Alias.name ↔
      ("_STDINT_H" ∉ (Env.mk ["__MK20DX256__"] []).macros ∧
        "__MK20DX256__" ∈ (Env.mk ["__MK20DX256__"] []).macros)) :=
  ⟨by decide, (C1_activation (Env.mk ["__MK20DX256__"] []) (by decide)).1⟩

/-! ## Width and signedness of the bindings (C2) -/

/-- C2: on the named target (`__MK20DX256__` defined, neither the file guard
nor `_STDINT_H` defined), each of the eight names is bound to a native type
whose size in Table 10-2 is exactly the canonical width of the name (so that
its `sizeof` is 1, 2, 4 or 8) and whose signedness is the one the name states. -/
theorem C2_exact_width (e : Env) (hg : "___CPP_DELEGATE__TYPES_H___" ∉ e.macros)
    (hs : "_STDINT_H" ∉ e.macros) (hm : "__MK20DX256__" ∈ e.macros) (a : Alias) :
    ∃ t : NativeType, boundType e a = some t ∧
      t.sizeBits = a.width ∧ t.sizeofBytes * 8 = a.width ∧
      t.sizeofBytes ∈ [1, 2, 4, 8] ∧ t.isSigned = a.signed := by
  unfold boundType
  rw [issuedTypedefs_active e hg hs hm]
  cases a <;>
    simp [Alias.name, List.lookup, NativeType.sizeBits, NativeType.sizeofBytes,
      NativeType.isSigned, Alias.width, Alias.signed]

/-- Witness for C2: `int32_t` on the bare named target. -/
theorem C2_exact_width_witness :
    ∃ t : NativeType, boundType (Env.mk ["__MK20DX256__"] []) Alias.int32_t = some t ∧
      t.sizeBits = Alias.int32_t.width ∧ t.sizeofBytes * 8 = Alias.int32_t.width ∧
      t.sizeofBytes ∈ [1, 2, 4, 8] ∧ t.isSigned = Alias.int32_t.signed :=
  C2_exact_width (Env.mk ["__MK20DX256__"] []) (by decide) (by decide) (by decide)
    Alias.int32_t

/-! ## Repeated inclusion (C3) -/

/-- C3: inclusion of `Types.h` is idempotent.  In every environment, including
the header twice in a row gives the same macros and type definitions as
including it once, the second inclusion issues no type definition, and over
both inclusions no name is defined twice by the header. -/
theorem C3_idempotent (e : Env) :
    TypesH (TypesH e) = TypesH e ∧
    issuedTypedefs (TypesH e) = [] ∧
    ((issuedTypedefs e ++ issuedTypedefs (TypesH e)).map Prod.fst).Nodup := by
  have h2 := issuedTypedefs_guarded (TypesH e) (guard_defined_after e)
  refine ⟨TypesH_guarded _ (guard_defined_after e), h2, ?_⟩
  rw [h2, List.append_nil]
  rcases issuedTypedefs_cases e with h | h <;> rw [h] <;> decide

/-! ## The standard header came first (C5) -/

/-- C5: in every environment where `_STDINT_H` is defined, an inclusion of
`Types.h` leaves the type definitions exactly as they were and issues none,
whether or not `__MK20DX256__` is defined. -/
theorem C5_inert_after_stdint (e : Env) (hs : "_STDINT_H" ∈ e.macros) :
    (TypesH e).typedefs = e.typedefs ∧ issuedTypedefs e = [] ∧
    ∀ n : String, (TypesH e).typeDefined n = e.typeDefined n := by
  have hi := issuedTypedefs_inert e (Or.inl hs)
  have ht : (TypesH e).typedefs = e.typedefs := by
    rw [typedefs_eq_append_issued, hi, List.append_nil]
  exact ⟨ht, hi, fun n => by simp [Env.typeDefined, Env.typeNames, ht]⟩

/-- Witness for C5: the named target with the standard header already included
and its definition of `int32_t` in place. -/
theorem C5_inert_after_stdint_witness :
    "_STDINT_H" ∈ (Env.mk ["__MK20DX256__", "_STDINT_H"] [("int32_t", .signedLong)]).macros ∧
    (TypesH (Env.mk ["__MK20DX256__", "_STDINT_H"] [("int32_t", .signedLong)])).typedefs =
      [("int32_t", .signedLong)] :=
  ⟨by decide,
   (C5_inert_after_stdint (Env.mk ["__MK20DX256__", "_STDINT_H"] [("int32_t", .signedLong)])
      (by decide)).1⟩

/-! ## Round trip through a variable (C7) -/

/-- C7: on the named target, for each of the eight names and every value of its
canonical range, storing the value in a variable of the bound type and reading
it back yields the same value; the range of the bound type in Table 10-2
contains the canonical range, whose ends are therefore preserved too. -/
theorem C7_round_trip (e : Env) (hg : "___CPP_DELEGATE__TYPES_H___" ∉ e.macros)
    (hs : "_STDINT_H" ∉ e.macros) (hm : "__MK20DX256__" ∈ e.macros) (a : Alias)
    (v : Int) (hlo : a.canonicalMin ≤ v) (hhi : v ≤ a.canonicalMax) :
    ∃ t : NativeType, boundType e a = some t ∧
      t.load (t.store v) = v ∧
      t.load (t.store a.canonicalMin) = a.canonicalMin ∧
      t.load (t.store a.canonicalMax) = a.canonicalMax ∧
      t.rangeMin ≤ a.canonicalMin ∧ a.canonicalMax ≤ t.rangeMax := by
  unfold boundType
  rw [issuedTypedefs_active e hg hs hm]
  cases a <;>
    simp [Alias.name, List.lookup, NativeType.convert, NativeType.sizeBits,
      NativeType.load, NativeType.store, NativeType.rangeMax,
      NativeType.rangeMin, Alias.canonicalMin, Alias.canonicalMax, Alias.width,
      Alias.signed] at hlo hhi ⊢ <;>
    omega

/-- Witness for C7: the least value of `int64_t` on the bare named target. -/
theorem C7_round_trip_witness :
    ∃ t : NativeType, boundType (Env.mk ["__MK20DX256__"] []) Alias.int64_t = some t ∧
      t.load (t.store (-9223372036854775808)) = -9223372036854775808 ∧
      t.load (t.store Alias.int64_t.canonicalMin) = Alias.int64_t.canonicalMin ∧
      t.load (t.store Alias.int64_t.canonicalMax) = Alias.int64_t.canonicalMax ∧
      t.rangeMin ≤ Alias.int64_t.canonicalMin ∧ Alias.int64_t.canonicalMax ≤ t.rangeMax :=
  C7_round_trip (Env.mk ["__MK20DX256__"] []) (by decide) (by decide) (by decide)
    Alias.int64_t (-9223372036854775808) (by decide) (by decide)

/-! ## The sentinel of the standard header (C4) -/

/-- Refutation of C4 as stated: on the bare named target, with `_STDINT_H`
not defined, `_STDINT_H` is still not defined after `Types.h` has been included,
and a block guarded by `#ifndef _STDINT_H` that follows (here one that defines the
sentinel and declares `int32_t`) is processed and declares its type. -/
theorem C4_counterexample :
    (Env.mk ["__MK20DX256__"] []).defined "__MK20DX256__" = true ∧
    (Env.mk ["__MK20DX256__"] []).defined "_STDINT_H" = false ∧
    (TypesH (Env.mk ["__MK20DX256__"] [])).defined "_STDINT_H" = false ∧
    (ifndefBlock "_STDINT_H"
        (fun e => typedefDecl .signedLong "int32_t" (defineMacro "_STDINT_H" e))
        (TypesH (Env.mk ["__MK20DX256__"] []))).typedefs ≠
      (TypesH (Env.mk ["__MK20DX256__"] [])).typedefs := by
  decide

/-- C4, amended: `Types.h` only tests the sentinel `_STDINT_H` and never defines
it.  After an inclusion `_STDINT_H` is defined exactly if it was defined before.
So the exclusion works in one order only: when `_STDINT_H` is already defined,
the inclusion issues no type definition; when it is not, a block guarded by
`#ifndef _STDINT_H` that follows the inclusion is still processed. -/
theorem C4_sentinel_only_tested (e : Env) :
    (TypesH e).defined "_STDINT_H" = e.defined "_STDINT_H" ∧
    (e.defined "_STDINT_H" = true → issuedTypedefs e = []) ∧
    (e.defined "_STDINT_H" = false →
      ∀ body : Env → Env, ifndefBlock "_STDINT_H" body (TypesH e) = body (TypesH e)) := by
  have hd : (TypesH e).defined "_STDINT_H" = e.defined "_STDINT_H" := by
    have hm := macros_eq_append_issued e
    rcases issuedMacros_cases e with ⟨h, _⟩ | ⟨h, _⟩ <;>
      simp [Env.defined, hm, h]
  refine ⟨hd, ?_, ?_⟩
  · intro h
    exact issuedTypedefs_inert e (Or.inl (by simpa [Env.defined] using h))
  · intro h body
    simp [ifndefBlock, hd, h]

/-- Witness for C4, amended: the bare named target. -/
theorem C4_sentinel_only_tested_witness :
    (TypesH (Env.mk ["__MK20DX256__"] [])).defined "_STDINT_H" = false ∧
    ifndefBlock "_STDINT_H" (typedefDecl .signedLong "int32_t")
        (TypesH (Env.mk ["__MK20DX256__"] [])) =
      typedefDecl .signedLong "int32_t" (TypesH (Env.mk ["__MK20DX256__"] [])) :=
  ⟨(C4_sentinel_only_tested (Env.mk ["__MK20DX256__"] [])).1.trans (by decide),
   (C4_sentinel_only_tested (Env.mk ["__MK20DX256__"] [])).2.2 (by decide)
     (typedefDecl .signedLong "int32_t")⟩

/-! ## What an inclusion may change (C8) -/

/-- Refutation of C8 as stated: on the named target, with the file guard and
`_STDINT_H` not defined, in an environment where `int8_t` already names the type
`signed char`, the inclusion issues `typedef signed char int8_t;` all the same:
a type name that existed before is defined again. -/
theorem C8_counterexample :
    (Env.mk ["__MK20DX256__"] [("int8_t", .signedChar)]).typeDefined "int8_t" = true ∧
    ("int8_t", NativeType.signedChar) ∈
      issuedTypedefs (Env.mk ["__MK20DX256__"] [("int8_t", .signedChar)]) := by
  decide

/-- C8, amended: in every environment, an inclusion of `Types.h` removes nothing
and only appends: the macros and type definitions that existed are all still
there, unchanged and in place.  It adds at most one macro, the file guard, and
only when the guard was not defined (no macro is defined twice); it adds at most
eight type definitions, each for one of the eight fixed-width names.  A type
name that existed before is defined again exactly when the file guard and
`_STDINT_H` are not defined, `__MK20DX256__` is defined and the name is one of
the eight; so some existing type name is defined again exactly when the block is
active and one of the eight names already is a type name. -/
theorem C8_frame (e : Env) :
    (TypesH e).macros = e.macros ++ issuedMacros e ∧
    (TypesH e).typedefs = e.typedefs ++ issuedTypedefs e ∧
    (issuedMacros e).length ≤ 1 ∧
    (∀ m ∈ issuedMacros e, m = "___CPP_DELEGATE__TYPES_H___" ∧ m ∉ e.macros) ∧
    (issuedTypedefs e).length ≤ 8 ∧
    (∀ n ∈ (issuedTypedefs e).map Prod.fst, ∃ a : Alias, a.name = n) ∧
    (∀ n : String,
      (n ∈ (issuedTypedefs e).map Prod.fst ∧ e.typeDefined n = true) ↔
        ("___CPP_DELEGATE__TYPES_H___" ∉ e.macros ∧ "_STDINT_H" ∉ e.macros ∧
          "__MK20DX256__" ∈ e.macros ∧ (∃ a : Alias, a.name = n) ∧
          e.typeDefined n = true)) ∧
    ((∃ n ∈ (issuedTypedefs e).map Prod.fst, e.typeDefined n = true) ↔
      ("___CPP_DELEGATE__TYPES_H___" ∉ e.macros ∧ "_STDINT_H" ∉ e.macros ∧
        "__MK20DX256__" ∈ e.macros ∧ ∃ a : Alias, e.typeDefined a.name = true)) := by
  refine ⟨macros_eq_append_issued e, typedefs_eq_append_issued e, ?_, ?_, ?_, ?_, ?_, ?_⟩
  · rcases issuedMacros_cases e with ⟨h, _⟩ | ⟨h, _⟩ <;> simp [h]
  · rcases issuedMacros_cases e with ⟨h, _⟩ | ⟨h, hn⟩
    · simp [h]
    · intro m hm
      rw [h, List.mem_singleton] at hm
      subst hm
      exact ⟨rfl, hn⟩
  · rcases issuedTypedefs_cases e with h | h <;> simp [h]
  · intro n hn
    exact ((mem_issuedNames_iff e n).mp hn).2.2.2
  · intro n
    rw [mem_issuedNames_iff]
    constructor
    · rintro ⟨⟨hg, hs, hm, ha⟩, hd⟩
      exact ⟨hg, hs, hm, ha, hd⟩
    · rintro ⟨hg, hs, hm, ha, hd⟩
      exact ⟨⟨hg, hs, hm, ha⟩, hd⟩
  · constructor
    · rintro ⟨n, hn, hd⟩
      obtain ⟨hg, hs, hm, a, rfl⟩ := (mem_issuedNames_iff e n).mp hn
      exact ⟨hg, hs, hm, a, hd⟩
    · rintro ⟨hg, hs, hm, a, hd⟩
      exact ⟨a.name, (mem_issuedNames_iff e a.name).mpr ⟨hg, hs, hm, a, rfl⟩, hd⟩

/-- Witness for C8, amended: on the named target with the standard header
included first and `int8_t` defined by it, no existing type name is defined
again. -/
theorem C8_frame_witness :
    ¬ ∃ n ∈ (issuedTypedefs
        (Env.mk ["__MK20DX256__", "_STDINT_H"] [("int8_t", .signedChar)])).map Prod.fst,
      (Env.mk ["__MK20DX256__", "_STDINT_H"] [("int8_t", .signedChar)]).typeDefined n = true :=
  fun h =>
    ((C8_frame (Env.mk ["__MK20DX256__", "_STDINT_H"]
      [("int8_t", .signedChar)])).2.2.2.2.2.2.2.mp h).2.1 (by decide)

/-! ## Sequences of inclusions (C9, C10) -/

theorem setMacro_typedefs (name : String) (b : Bool) (e : Env) :
    (setMacro name b e).typedefs = e.typedefs := by
  unfold setMacro defineMacro undefMacro
  cases b <;> simp
  split <;> rfl

theorem setMacro_mem_of_ne (name other : String) (b : Bool) (e : Env) (hne : other ≠ name) :
    other ∈ (setMacro name b e).macros ↔ other ∈ e.macros := by
  unfold setMacro defineMacro undefMacro
  cases b
  · simp [List.mem_filter, hne]
  · simp only [if_true]
    split
    · rfl
    · simp [hne]

theorem includeWith_guarded (c : Setting) (e : Env)
    (h : "___CPP_DELEGATE__TYPES_H___" ∈ e.macros) :
    "___CPP_DELEGATE__TYPES_H___" ∈ (includeWith c e).macros ∧
    (includeWith c e).typedefs = e.typedefs := by
  have h1 : "___CPP_DELEGATE__TYPES_H___" ∈
      (setMacro "_STDINT_H" c.stdintH (setMacro "__MK20DX256__" c.mk20dx256 e)).macros := by
    rw [setMacro_mem_of_ne _ _ _ _ (by decide), setMacro_mem_of_ne _ _ _ _ (by decide)]
    exact h
  unfold includeWith
  rw [TypesH_guarded _ h1]
  exact ⟨h1, by rw [setMacro_typedefs, setMacro_typedefs]⟩

theorem includeSeq_guarded (cs : List Setting) (e : Env)
    (h : "___CPP_DELEGATE__TYPES_H___" ∈ e.macros) :
    "___CPP_DELEGATE__TYPES_H___" ∈ (includeSeq cs e).macros ∧
    (includeSeq cs e).typedefs = e.typedefs := by
  induction cs generalizing e with
  | nil => exact ⟨h, rfl⟩
  | cons c cs ih =>
    have hc := includeWith_guarded c e h
    have := ih (includeWith c e) hc.1
    exact ⟨this.1, this.2.trans hc.2⟩

/-- C9: the first inclusion decides.  Every inclusion of `Types.h` leaves the
file guard defined, also when it issues nothing; hence whatever the settings of
`__MK20DX256__` and `_STDINT_H` before the later inclusions, these issue no
type definition, and after an inert first inclusion (`_STDINT_H` defined or
`__MK20DX256__` not defined) the type definitions stay as they were before. -/
theorem C9_first_inclusion_decides (e : Env) (cs : List Setting) :
    "___CPP_DELEGATE__TYPES_H___" ∈ (TypesH e).macros ∧
    "___CPP_DELEGATE__TYPES_H___" ∈ (includeSeq cs (TypesH e)).macros ∧
    (includeSeq cs (TypesH e)).typedefs = (TypesH e).typedefs ∧
    (("_STDINT_H" ∈ e.macros ∨ "__MK20DX256__" ∉ e.macros) →
      (includeSeq cs (TypesH e)).typedefs = e.typedefs) := by
  have hg := guard_defined_after e
  have hs := includeSeq_guarded cs (TypesH e) hg
  refine ⟨hg, hs.1, hs.2, fun hc => ?_⟩
  rw [hs.2, typedefs_eq_append_issued, issuedTypedefs_inert e hc, List.append_nil]

/-- Witness for C9: a first inclusion off target, then one with
`__MK20DX256__` defined and `_STDINT_H` not defined. -/
theorem C9_first_inclusion_decides_witness :
    (includeSeq [Setting.mk true false] (TypesH (Env.mk [] []))).typedefs = [] :=
  (C9_first_inclusion_decides (Env.mk [] []) [Setting.mk true false]).2.2.2
    (Or.inr (by decide))

theorem allOrNone_TypesH (e : Env) (h : allOrNone e) : allOrNone (TypesH e) := by
  by_cases hg : "___CPP_DELEGATE__TYPES_H___" ∈ e.macros
  · rw [TypesH_guarded e hg]; exact h
  · by_cases hc : "_STDINT_H" ∈ e.macros ∨ "__MK20DX256__" ∉ e.macros
    · rw [TypesH_inert e hg hc]; exact h
    · have h1 : "_STDINT_H" ∉ e.macros := fun c => hc (Or.inl c)
      have h3 : "__MK20DX256__" ∈ e.macros := by
        by_contra c
        exact hc (Or.inr c)
      left
      intro a
      rw [TypesH_active e hg h1 h3]
      cases a <;> simp [Env.typeDefined, Env.typeNames, Alias.name]

theorem allOrNone_includeWith (c : Setting) (e : Env) (h : allOrNone e) :
    allOrNone (includeWith c e) := by
  apply allOrNone_TypesH
  unfold allOrNone Env.typeDefined Env.typeNames at h ⊢
  rw [setMacro_typedefs, setMacro_typedefs]
  exact h

theorem allOrNone_includeSeq (cs : List Setting) (e : Env) (h : allOrNone e) :
    allOrNone (includeSeq cs e) := by
  induction cs generalizing e with
  | nil => exact h
  | cons c cs ih => exact ih _ (allOrNone_includeWith c e h)

/-- C10: all or nothing.  Starting from an environment in which none of the
eight names is a type name, after any finite sequence of inclusions of
`Types.h`, with `__MK20DX256__` and `_STDINT_H` set arbitrarily before each,
either all eight names are defined or none is. -/
theorem C10_all_or_nothing (e : Env) (cs : List Setting)
    (h : ∀ a : Alias, e.typeDefined a.name = false) :
    (∀ a : Alias, (includeSeq cs e).typeDefined a.name = true) ∨
    (∀ a : Alias, (includeSeq cs e).typeDefined a.name = false) :=
  allOrNone_includeSeq cs e (Or.inr h)

/-- Witness for C10: an inert inclusion followed by one on the named target,
from the empty environment. -/
theorem C10_all_or_nothing_witness :
    (∀ a : Alias,
      (includeSeq [Setting.mk false true, Setting.mk true false] (Env.mk [] [])).typeDefined
        a.name = true) ∨
    (∀ a : Alias,
      (includeSeq [Setting.mk false true, Setting.mk true false] (Env.mk [] [])).typeDefined
        a.name = false) :=
  C10_all_or_nothing (Env.mk [] []) [Setting.mk false true, Setting.mk true false]
    (fun a => by cases a <;> decide)

end CppDelegate
